import Mathlib

/-!
Verification of the LLM Orchestration Engine's routing/API contracts.

The snapshot contains the frontend API client (`lib/api.ts`, here `Api`),
dashboard components, and infrastructure files; the backend router subsystem
itself is not part of the snapshot, so the Scorer, Cost Calculator and Router
are modelled from the specification where a claim needs them (each such
definition carries a `Modelled from the spec:` doc comment).

Numbers of the TypeScript source (`number`) are embedded as rationals `ℚ`
(token counts and indices as `ℕ`/`ℤ` where the code only uses integers);
strings as Lean `String`.
-/

namespace Api

/-- The task kinds of `GenerateRequest.task`:
`'summarize' | 'sentiment' | 'rewrite' | 'chat' | 'code' | 'analysis'`. -/
inductive Task where
  | summarize | sentiment | rewrite | chat | code | analysis
deriving DecidableEq, Repr

/-- The preference profiles of `GenerateRequest.model_preference`:
`'fast' | 'cheap' | 'best' | 'balanced'`. -/
inductive Preference where
  | fast | cheap | best | balanced
deriving DecidableEq, Repr

/-- The string value each preference carries on the wire. -/
def Preference.value : Preference → String
  | .fast => "fast"
  | .cheap => "cheap"
  | .best => "best"
  | .balanced => "balanced"

/-- The `GenerateRequest` interface of `lib/api.ts`: `task`,
`model_preference`, `text` (required), `max_tokens?`, `temperature?`
(optional). -/
structure GenerateRequest where
  task : Task
  model_preference : Preference
  text : String
  max_tokens : Option ℕ
  temperature : Option ℚ

/-- The field names of the `GenerateRequest` interface, in declaration
order. -/
def GenerateRequest.fields : List String :=
  ["task", "model_preference", "text", "max_tokens", "temperature"]

/-- The names of the optional (`?`-marked) fields of `GenerateRequest`. -/
def GenerateRequest.optionalFields : List String :=
  ["max_tokens", "temperature"]

/-- The request fields the spec's request contract lists, in the spec's
wording: task kind, preference profile, raw input text, optional max-cost,
optional max-latency.  This definition follows the spec's words, to be
compared with `GenerateRequest.fields`, which follows the source. -/
def specRequestFields : List String :=
  ["task", "model_preference", "text", "max_cost", "max_latency"]

/-- The `routing` block of `GenerateResponse`. -/
structure Routing where
  selected_model : String
  provider : String
  reason : String
  alternatives_considered : List String
  routing_time_ms : ℚ
  cost_score : ℚ
  latency_score : ℚ
  quality_score : ℚ
  availability_score : ℚ
  final_score : ℚ

/-- Field names of the `routing` block, in declaration order. -/
def Routing.fields : List String :=
  ["selected_model", "provider", "reason", "alternatives_considered",
   "routing_time_ms", "cost_score", "latency_score", "quality_score",
   "availability_score", "final_score"]

/-- The `usage` block of `GenerateResponse`. -/
structure Usage where
  input_tokens : ℕ
  output_tokens : ℕ
  total_tokens : ℕ
  input_cost_usd : ℚ
  output_cost_usd : ℚ
  total_cost_usd : ℚ

/-- Field names of the `usage` block, in declaration order. -/
def Usage.fields : List String :=
  ["input_tokens", "output_tokens", "total_tokens",
   "input_cost_usd", "output_cost_usd", "total_cost_usd"]

/-- The `performance` block of `GenerateResponse`. -/
structure Performance where
  total_time_ms : ℚ
  routing_time_ms : ℚ
  inference_time_ms : ℚ
  overhead_time_ms : ℚ

/-- Field names of the `performance` block, in declaration order. -/
def Performance.fields : List String :=
  ["total_time_ms", "routing_time_ms", "inference_time_ms",
   "overhead_time_ms"]

/-- The `GenerateResponse` interface of `lib/api.ts`. -/
structure GenerateResponse where
  success : Bool
  result : Option String
  error : Option String
  request_id : String
  timestamp : String
  routing : Routing
  usage : Usage
  performance : Performance

/-- Top-level field names of `GenerateResponse`, in declaration order. -/
def GenerateResponse.fields : List String :=
  ["success", "result", "error", "request_id", "timestamp",
   "routing", "usage", "performance"]

/-- The per-provider record type of `HealthResponse.providers`:
`{ status: string; recent_requests: number; error_rate: number }`. -/
structure ProviderRecord where
  status : String
  recent_requests : ℕ
  error_rate : ℚ

/-- Field names of the per-provider record of `HealthResponse.providers`. -/
def ProviderRecord.fields : List String :=
  ["status", "recent_requests", "error_rate"]

/-- The dashboard's `ProviderHealth` interface (ProviderStatus component):
`status`, `recent_requests`, `error_rate` required, `avg_latency_ms?`
optional. -/
structure ProviderHealth where
  status : String
  recent_requests : ℕ
  error_rate : ℚ
  avg_latency_ms : Option ℚ

/-- The required field names of the dashboard's `ProviderHealth`. -/
def ProviderHealth.requiredFields : List String :=
  ["status", "recent_requests", "error_rate"]

/-- The optional (`?`-marked) field names of the dashboard's
`ProviderHealth`. -/
def ProviderHealth.optionalFields : List String :=
  ["avg_latency_ms"]

/-- One entry of the `PREFERENCES` constant of the TryItDemo component. -/
structure PreferenceOption where
  value : String
  label : String
  description : String
  icon : String

/-- The `PREFERENCES` constant of the TryItDemo component: the four
selectable preference profiles offered in the UI. -/
def PREFERENCES : List PreferenceOption :=
  [⟨"fast", "Fast", "Prioritize speed", "zap"⟩,
   ⟨"cheap", "Cheap", "Minimize cost", "money"⟩,
   ⟨"best", "Best", "Highest quality", "trophy"⟩,
   ⟨"balanced", "Balanced", "Optimize all", "scales"⟩]

/-- The palette of `getModelColor` in `lib/api.ts` (eight chart colors). -/
def modelColors : List String :=
  ["#0ea5e9", "#8b5cf6", "#10b981", "#f59e0b",
   "#ef4444", "#ec4899", "#6366f1", "#14b8a6"]

/-- `getModelColor(model, index)` of `lib/api.ts`: returns
`colors[index % colors.length]`; the `model` argument is never used. -/
def getModelColor (_model : String) (index : ℕ) : String :=
  modelColors.getD (index % modelColors.length) "#0ea5e9"

/-- The ten decimal digit characters. -/
def digitChars : List Char :=
  ['0', '1', '2', '3', '4', '5', '6', '7', '8', '9']

/-- The decimal digit character of `d % 10`. -/
def digit (d : ℕ) : Char :=
  digitChars.getD (d % 10) '0'

/-- The decimal digit characters of `n`, most significant first, recursing
on a fuel bound (so the definition is structural and computes by kernel
reduction; `n` itself always suffices as fuel, since a number has at most
`n` decimal digits). -/
def natToDigitsAux : ℕ → ℕ → List Char
  | 0, n => [digit n]
  | fuel + 1, n =>
    if n < 10 then [digit n]
    else natToDigitsAux fuel (n / 10) ++ [digit (n % 10)]

/-- The decimal digit characters of a natural number, most significant
first (the rendering JavaScript uses for the integer part of a
`toFixed` result). -/
def natToDigits (n : ℕ) : List Char :=
  natToDigitsAux n n

/-- Exactly `k` decimal digit characters of `n`, zero-padded on the left,
most significant first (the fraction part of a `toFixed` result). -/
def fracDigits (n : ℕ) : ℕ → List Char
  | 0 => []
  | k + 1 => fracDigits (n / 10) k ++ [digit (n % 10)]

/-- Splits a positive natural `s` as `s' * 10^z` with `s'` not divisible
by 10, recursing on a fuel bound (`s` itself always suffices): returns
`(s', accumulated z)`. -/
def stripZerosAux : ℕ → ℕ → ℕ → ℕ × ℕ
  | 0, s, z => (s, z)
  | fuel + 1, s, z =>
    if s % 10 = 0 ∧ s ≠ 0 then stripZerosAux fuel (s / 10) (z + 1)
    else (s, z)

/-- The pair `(s', z)` with `n = s' * 10^z` and `10 ∤ s'` (for `n > 0`). -/
def stripTrailingZeros (n : ℕ) : ℕ × ℕ :=
  stripZerosAux n n 0

/-- ECMA-262 `Number::toString(m, 10)` for an integer `m ≥ 10^21`, as
`toFixed` falls back to it: with `m = s * 10^z`, `10 ∤ s`, `s` of digits
`d :: rest` and `n` the decimal length of `m`, the exponential form is
`d e+(n-1)` for a single digit and `d.rest e+(n-1)` otherwise.  The digit
string is `m`'s exact decimal expansion; every JS float at or above
`2^53` (so in particular at or above `10^21`) is an integer with an exact
decimal expansion, and the shortest-round-trip digit selection ECMA
applies among floats is a floating-point artifact with no counterpart in
the exact rational embedding. -/
def jsToStringLargeInt (m : ℕ) : String :=
  let p := stripTrailingZeros m
  let ds := natToDigits p.1
  let n := ds.length + p.2
  match ds with
  | [] => "0"
  | [d] => ⟨d :: 'e' :: '+' :: natToDigits (n - 1)⟩
  | d :: rest => ⟨d :: '.' :: (rest ++ 'e' :: '+' :: natToDigits (n - 1))⟩

/-- JavaScript `Number.prototype.toFixed` on the rational embedding of JS
numbers, following ECMA-262: take the sign, then, if the magnitude is at
or above `10^21`, fall back to `Number::toString` (exponential form);
otherwise round `|x| * 10^f` half-up to an integer and render it with a
decimal point before the last `f` digits.  `NaN` and `Infinity` inputs do
not exist in the rational embedding; a non-integer rational at or above
`10^21` (which no JS float can be) is rendered via its floor. -/
def jsToFixed (x : ℚ) (f : ℕ) : String :=
  if 10 ^ 21 ≤ |x| then
    (if x < 0 then "-" else "") ++ jsToStringLargeInt (⌊|x|⌋).toNat
  else
    let n : ℕ := (⌊|x| * 10 ^ f + 1 / 2⌋).toNat
    let s : List Char := natToDigits (n / 10 ^ f) ++ '.' :: fracDigits (n % 10 ^ f) f
    if x < 0 then ⟨'-' :: s⟩ else ⟨s⟩

/-- `formatCost(cost)` of `lib/api.ts`: `'<$0.0001'` below `0.0001`, four
decimal places below `0.01`, two decimal places otherwise. -/
def formatCost (cost : ℚ) : String :=
  if cost < 1 / 10000 then "<$0.0001"
  else if cost < 1 / 100 then "$" ++ jsToFixed cost 4
  else "$" ++ jsToFixed cost 2

end Api

namespace Engine

/-!
The routing engine itself (Cost Calculator, Scorer, Router) is not part of
this snapshot; the definitions below are modelled from the specification.
-/

/-- Modelled from the spec: the snapshot has no Cost Calculator source;
the per-1000-token pricing pair of a model (`price_in`, `price_out`). -/
structure Pricing where
  price_in : ℚ
  price_out : ℚ
deriving DecidableEq

/-- Modelled from the spec: the Cost Calculator's single failure mode,
rejecting negative token counts. -/
inductive CostError where
  | invalidTokenCount
deriving DecidableEq, Repr

/-- Modelled from the spec: the snapshot has no Cost Calculator source;
`cost(inputTokens, outputTokens, pricing) = inputTokens/1000 * price_in +
outputTokens/1000 * price_out`, failing with `InvalidTokenCount` on a
negative token count and in no other way. -/
def cost (inputTokens outputTokens : ℤ) (pricing : Pricing) : Except CostError ℚ :=
  if inputTokens < 0 ∨ outputTokens < 0 then .error .invalidTokenCount
  else .ok ((inputTokens : ℚ) / 1000 * pricing.price_in +
            (outputTokens : ℚ) / 1000 * pricing.price_out)

/-- Modelled from the spec: the Health Tracker's derived per-provider
state. -/
inductive HealthState where
  | healthy | degraded | unhealthy
deriving DecidableEq, Repr

/-- Modelled from the spec: the snapshot has no Health Tracker source;
`availabilityScore`: Healthy = 1.0, Degraded = 0.5 scaled down further by
`(1 - error_rate)`, Unhealthy = 0.0. -/
def availabilityScore (state : HealthState) (errorRate : ℚ) : ℚ :=
  match state with
  | .healthy => 1
  | .degraded => 1 / 2 * (1 - errorRate)
  | .unhealthy => 0

/-- Modelled from the spec: a weight tuple of a preference profile,
`(w_cost, w_latency, w_quality, w_availability)`. -/
structure Weights where
  w_cost : ℚ
  w_latency : ℚ
  w_quality : ℚ
  w_availability : ℚ

/-- All four weights of a tuple are non-negative. -/
def Weights.Nonneg (w : Weights) : Prop :=
  0 ≤ w.w_cost ∧ 0 ≤ w.w_latency ∧ 0 ≤ w.w_quality ∧ 0 ≤ w.w_availability

/-- The sum of the four weights of a tuple. -/
def Weights.sum (w : Weights) : ℚ :=
  w.w_cost + w.w_latency + w.w_quality + w.w_availability

/-- Modelled from the spec: what the Scorer reads of one eligible
candidate — estimated cost, baseline latency, static baseline quality, and
the Health Tracker snapshot for its provider. -/
structure Candidate where
  id : String
  estCost : ℚ
  baselineLatency : ℚ
  quality : ℚ
  health : HealthState
  errorRate : ℚ
deriving DecidableEq

/-- The smallest element of a list of rationals (0 for the empty list,
which the Scorer never passes). -/
def listMin : List ℚ → ℚ
  | [] => 0
  | a :: t => t.foldr min a

/-- The largest element of a list of rationals (0 for the empty list). -/
def listMax : List ℚ → ℚ
  | [] => 0
  | a :: t => t.foldr max a

/-- Modelled from the spec: min–max normalization of `x` across the values
`l` of the current eligible set; when all values tie (in particular for a
singleton set) the normalized value is 0, so that the derived
`1 - normalize` axis scores 1.0, as the spec prescribes for singletons. -/
def minMaxNorm (l : List ℚ) (x : ℚ) : ℚ :=
  if listMax l = listMin l then 0
  else (x - listMin l) / (listMax l - listMin l)

/-- Modelled from the spec: `cost score = 1 − normalize(estimatedCost)`
across the current eligible set. -/
def costScore (set : List Candidate) (c : Candidate) : ℚ :=
  1 - minMaxNorm (set.map Candidate.estCost) c.estCost

/-- Modelled from the spec: `latency score = 1 − normalize(baselineLatency)`
across the current eligible set. -/
def latencyScore (set : List Candidate) (c : Candidate) : ℚ :=
  1 - minMaxNorm (set.map Candidate.baselineLatency) c.baselineLatency

/-- Modelled from the spec: the quality score is the candidate's static
baseline quality, not renormalized. -/
def qualityScore (c : Candidate) : ℚ :=
  c.quality

/-- The availability score of a candidate, read from the health snapshot. -/
def availScore (c : Candidate) : ℚ :=
  availabilityScore c.health c.errorRate

/-- Modelled from the spec: `final score = Σ weight_i × score_i` for the
active preference profile. -/
def finalScore (w : Weights) (set : List Candidate) (c : Candidate) : ℚ :=
  w.w_cost * costScore set c + w.w_latency * latencyScore set c +
  w.w_quality * qualityScore c + w.w_availability * availScore c

/-- Modelled from the spec: the provider-invocation error kinds the Router
recognizes. -/
inductive ErrorKind where
  | timeout | rateLimited | unauthenticated | transientTransportError | modelRefused
deriving DecidableEq, Repr

/-- Modelled from the spec: the outcome of the Router's `route`. -/
inductive RouteResult (α : Type) where
  | success : String → α → List (String × ErrorKind) → RouteResult α
  | unauthenticatedFailure : List (String × ErrorKind) → RouteResult α
  | allProvidersFailed : List (String × ErrorKind) → RouteResult α
  | noEligibleModel : RouteResult α
deriving DecidableEq

/-- Modelled from the spec: the snapshot has no Router source; the Router's
attempt loop over the already-ranked candidate sequence: try the next
candidate, succeed on `ok`, surface `Unauthenticated` immediately without
fallback, otherwise record the failure and move to the next candidate,
stopping after the attempt cap or exhaustion, whichever first; on
exhaustion return `AllProvidersFailed` carrying every attempt's error. -/
def attemptLoop (invoke : String → Except ErrorKind α) :
    ℕ → List String → List (String × ErrorKind) → RouteResult α
  | 0, _, attempts => .allProvidersFailed attempts
  | _ + 1, [], attempts => .allProvidersFailed attempts
  | cap + 1, c :: rest, attempts =>
    match invoke c with
    | .ok v => .success c v attempts
    | .error e =>
      if e = .unauthenticated then .unauthenticatedFailure (attempts ++ [(c, e)])
      else attemptLoop invoke cap rest (attempts ++ [(c, e)])

/-- Modelled from the spec: `route` — fail fast with `NoEligibleModel` on an
empty eligible set, otherwise run the attempt loop over the ranked
candidates under the configured attempt cap. -/
def route (invoke : String → Except ErrorKind α) (cap : ℕ)
    (eligible : List String) : RouteResult α :=
  if eligible.isEmpty then .noEligibleModel
  else attemptLoop invoke cap eligible []

end Engine

/-- Claim C1 (counterexample): the claim fails — `GenerateRequest` has no
`max_cost` and no `max_latency` field, so its field list differs from the
request-field list the spec's words describe. -/
theorem Api.request_lacks_max_cost_and_max_latency :
    "max_cost" ∉ Api.GenerateRequest.fields ∧
    "max_latency" ∉ Api.GenerateRequest.fields ∧
    Api.GenerateRequest.fields ≠ Api.specRequestFields := by
  decide

/-- Claim C1 (amended): the `GenerateRequest` contract consists of exactly
the enumerated task kind, the enumerated preference profile and the raw
input text, plus the optional fields `max_tokens` and `temperature`; no
max-cost or max-latency field exists. -/
theorem Api.request_fields_amended :
    Api.GenerateRequest.fields =
      ["task", "model_preference", "text", "max_tokens", "temperature"] ∧
    Api.GenerateRequest.optionalFields = ["max_tokens", "temperature"] ∧
    "max_cost" ∉ Api.GenerateRequest.fields ∧
    "max_latency" ∉ Api.GenerateRequest.fields := by
  decide

/-- Claim C2: every field the spec's response contract promises is present
in `GenerateResponse`: model/provider identifiers, rationale, the four
component scores with the final score, the alternatives list, token counts,
the input/output/total cost breakdown, and the
total/routing/inference/overhead latency breakdown. -/
theorem Api.response_contains_contract_fields :
    "routing" ∈ Api.GenerateResponse.fields ∧
    "usage" ∈ Api.GenerateResponse.fields ∧
    "performance" ∈ Api.GenerateResponse.fields ∧
    "selected_model" ∈ Api.Routing.fields ∧
    "provider" ∈ Api.Routing.fields ∧
    "reason" ∈ Api.Routing.fields ∧
    "cost_score" ∈ Api.Routing.fields ∧
    "latency_score" ∈ Api.Routing.fields ∧
    "quality_score" ∈ Api.Routing.fields ∧
    "availability_score" ∈ Api.Routing.fields ∧
    "final_score" ∈ Api.Routing.fields ∧
    "alternatives_considered" ∈ Api.Routing.fields ∧
    "input_tokens" ∈ Api.Usage.fields ∧
    "output_tokens" ∈ Api.Usage.fields ∧
    "input_cost_usd" ∈ Api.Usage.fields ∧
    "output_cost_usd" ∈ Api.Usage.fields ∧
    "total_cost_usd" ∈ Api.Usage.fields ∧
    "total_time_ms" ∈ Api.Performance.fields ∧
    "routing_time_ms" ∈ Api.Performance.fields ∧
    "inference_time_ms" ∈ Api.Performance.fields ∧
    "overhead_time_ms" ∈ Api.Performance.fields := by
  decide

/-- Claim C3 (counterexample): the claim fails — the per-provider record of
`HealthResponse.providers` carries no average-latency field (`avg_latency_ms`,
the repository's name for that quantity, is absent), and in the dashboard's
`ProviderHealth` that field is optional, not required. -/
theorem Api.health_provider_record_lacks_avg_latency :
    "avg_latency_ms" ∉ Api.ProviderRecord.fields ∧
    "avg_latency_ms" ∉ Api.ProviderHealth.requiredFields := by
  decide

/-- Claim C3 (amended): the per-provider health snapshot carries the
provider's status, its recent request count and its error rate; average
latency is absent from `HealthResponse`'s per-provider records and appears
only as the optional `avg_latency_ms` field of the dashboard's
`ProviderHealth`. -/
theorem Api.health_provider_fields_amended :
    Api.ProviderRecord.fields = ["status", "recent_requests", "error_rate"] ∧
    Api.ProviderHealth.requiredFields =
      ["status", "recent_requests", "error_rate"] ∧
    Api.ProviderHealth.optionalFields = ["avg_latency_ms"] ∧
    "avg_latency_ms" ∉ Api.ProviderRecord.fields := by
  decide

/-- Claim C7: the preference profiles at the public interface are exactly
fast, cheap, best and balanced: every `Preference` value is one of the
four, the values are pairwise distinct, and the UI's `PREFERENCES` list
offers exactly those four values in order, with no fifth option. -/
theorem Api.preferences_exactly_four :
    (∀ p : Api.Preference,
      p = .fast ∨ p = .cheap ∨ p = .best ∨ p = .balanced) ∧
    (∀ p q : Api.Preference, p.value = q.value → p = q) ∧
    Api.PREFERENCES.map Api.PreferenceOption.value =
      [Api.Preference.fast.value, Api.Preference.cheap.value,
       Api.Preference.best.value, Api.Preference.balanced.value] ∧
    Api.PREFERENCES.length = 4 := by
  refine ⟨fun p => ?_, fun p q => ?_, by decide, by decide⟩
  · cases p <;> simp
  · cases p <;> cases q <;> simp [Api.Preference.value]

/-- Claim C10: `getModelColor` ignores the model name — any two model
names receive the same color at the same index — and is periodic in the
index with period 8. -/
theorem Api.getModelColor_ignores_model_and_periodic :
    (∀ (m1 m2 : String) (i : ℕ),
      Api.getModelColor m1 i = Api.getModelColor m2 i) ∧
    (∀ (m : String) (i : ℕ),
      Api.getModelColor m (i + 8) = Api.getModelColor m i) := by
  constructor
  · intro m1 m2 i
    rfl
  · intro m i
    show Api.modelColors.getD ((i + 8) % Api.modelColors.length) _ = _
    have hlen : Api.modelColors.length = 8 := rfl
    rw [hlen, Nat.add_mod_right]
    rfl

/-- Claim C5: the cost calculator is the pure function
`inputTokens/1000 * price_in + outputTokens/1000 * price_out`; it fails
with `InvalidTokenCount` exactly when a token count is negative, and on
non-negative token counts it returns exactly that value. -/
theorem Engine.cost_spec (i o : ℤ) (p : Engine.Pricing) :
    (Engine.cost i o p = .error .invalidTokenCount ↔ i < 0 ∨ o < 0) ∧
    (0 ≤ i → 0 ≤ o →
      Engine.cost i o p =
        .ok ((i : ℚ) / 1000 * p.price_in + (o : ℚ) / 1000 * p.price_out)) := by
  refine ⟨⟨fun h => ?_, fun h => by simp [Engine.cost, h]⟩, fun hi ho => ?_⟩
  · by_contra hneg
    simp [Engine.cost, hneg] at h
  · have hc : ¬(i < 0 ∨ o < 0) := by omega
    simp [Engine.cost, hc]

/-- Claim C5 witness: at 3 input tokens and 5 output tokens the calculator
returns the exact linear combination of the two per-1000-token prices. -/
theorem Engine.cost_spec_witness :
    Engine.cost 3 5 ⟨3 / 100, 6 / 100⟩ =
      .ok (((3 : ℤ) : ℚ) / 1000 * (3 / 100) + ((5 : ℤ) : ℚ) / 1000 * (6 / 100)) :=
  (Engine.cost_spec 3 5 ⟨3 / 100, 6 / 100⟩).2 (by norm_num) (by norm_num)

/-- The fraction part of a `toFixed` rendering has exactly `k` characters. -/
theorem fracDigits_length (n k : ℕ) : (Api.fracDigits n k).length = k := by
  induction k generalizing n with
  | zero => rfl
  | succ k ih => simp [Api.fracDigits, ih]

/-- Every digit character produced by `digit` is a decimal digit. -/
theorem digit_isDigit (d : ℕ) : (Api.digit d).isDigit := by
  have key : ∀ r < 10, (Api.digitChars.getD r '0').isDigit := by decide
  exact key _ (Nat.mod_lt _ (by omega))

/-- Every character of a `fracDigits` rendering is a decimal digit. -/
theorem fracDigits_all_digits (k n : ℕ) :
    ∀ ch ∈ Api.fracDigits n k, ch.isDigit := by
  induction k generalizing n with
  | zero =>
    intro ch h
    simp [Api.fracDigits] at h
  | succ k ih =>
    intro ch h
    simp only [Api.fracDigits, List.mem_append, List.mem_singleton] at h
    rcases h with h | h
    · exact ih _ ch h
    · rw [h]
      exact digit_isDigit _

/-- Every character of a `natToDigitsAux` rendering is a decimal digit. -/
theorem natToDigitsAux_all_digits (fuel : ℕ) :
    ∀ (n : ℕ), ∀ ch ∈ Api.natToDigitsAux fuel n, ch.isDigit := by
  induction fuel with
  | zero =>
    intro n ch h
    simp only [Api.natToDigitsAux, List.mem_singleton] at h
    rw [h]
    exact digit_isDigit _
  | succ fuel ih =>
    intro n ch h
    rw [Api.natToDigitsAux] at h
    by_cases h10 : n < 10
    · simp [h10] at h
      rw [h]
      exact digit_isDigit _
    · simp only [h10, if_false, List.mem_append, List.mem_singleton] at h
      rcases h with h | h
      · exact ih _ ch h
      · rw [h]
        exact digit_isDigit _

/-- Every character of a `natToDigits` rendering is a decimal digit. -/
theorem natToDigits_all_digits (n : ℕ) :
    ∀ ch ∈ Api.natToDigits n, ch.isDigit :=
  natToDigitsAux_all_digits n n

/-- On a non-negative input below `10^21`, `jsToFixed` renders the rounded
value's integer digits, a decimal point, then exactly `f` fraction
digits. -/
theorem jsToFixed_nonneg_data (x : ℚ) (hx : 0 ≤ x) (hx21 : x < 10 ^ 21) (f : ℕ) :
    (Api.jsToFixed x f).data =
      Api.natToDigits ((⌊x * 10 ^ f + 1 / 2⌋).toNat / 10 ^ f) ++
      '.' :: Api.fracDigits ((⌊x * 10 ^ f + 1 / 2⌋).toNat % 10 ^ f) f := by
  have h : ¬ x < 0 := not_lt.2 hx
  have h21 : ¬ 10 ^ 21 ≤ x := not_le.2 hx21
  simp [Api.jsToFixed, h, h21, abs_of_nonneg hx]

/-- Claim C8 (amended): `formatCost` returns `<$0.0001` whenever the cost
is below 0.0001 (in particular at zero and at every negative cost); in
`[0.0001, 0.01)` it returns a dollar string with exactly four digit
characters after the decimal point; and in `[0.01, 10^21)` it returns a
dollar string with exactly two digit characters after the decimal point
(at or above `10^21`, `toFixed` falls back to exponential notation, see
the counterexample). -/
theorem Api.formatCost_branches (c : ℚ) :
    (c < 1 / 10000 → Api.formatCost c = "<$0.0001") ∧
    (1 / 10000 ≤ c → c < 1 / 100 →
      ∃ ip fr : List Char, (Api.formatCost c).data = '$' :: (ip ++ '.' :: fr) ∧
        fr.length = 4 ∧ (∀ ch ∈ fr, ch.isDigit) ∧ (∀ ch ∈ ip, ch.isDigit)) ∧
    (1 / 100 ≤ c → c < 10 ^ 21 →
      ∃ ip fr : List Char, (Api.formatCost c).data = '$' :: (ip ++ '.' :: fr) ∧
        fr.length = 2 ∧ (∀ ch ∈ fr, ch.isDigit) ∧ (∀ ch ∈ ip, ch.isDigit)) := by
  refine ⟨fun h => ?_, fun h1 h2 => ?_, fun h1 h21 => ?_⟩
  · rw [Api.formatCost, if_pos h]
  · have hge : ¬ c < 1 / 10000 := not_lt.2 h1
    have hx : (0 : ℚ) ≤ c := le_trans (by norm_num) h1
    refine ⟨Api.natToDigits ((⌊c * 10 ^ 4 + 1 / 2⌋).toNat / 10 ^ 4),
      Api.fracDigits ((⌊c * 10 ^ 4 + 1 / 2⌋).toNat % 10 ^ 4) 4, ?_,
      fracDigits_length _ _, fracDigits_all_digits _ _, natToDigits_all_digits _⟩
    rw [Api.formatCost, if_neg hge, if_pos h2, String.data_append,
      jsToFixed_nonneg_data c hx (lt_trans h2 (by norm_num)) 4]
    rfl
  · have hge : ¬ c < 1 / 10000 := by
      rw [not_lt]
      exact le_trans (by norm_num) h1
    have hlt : ¬ c < 1 / 100 := not_lt.2 h1
    have hx : (0 : ℚ) ≤ c := le_trans (by norm_num) h1
    refine ⟨Api.natToDigits ((⌊c * 10 ^ 2 + 1 / 2⌋).toNat / 10 ^ 2),
      Api.fracDigits ((⌊c * 10 ^ 2 + 1 / 2⌋).toNat % 10 ^ 2) 2, ?_,
      fracDigits_length _ _, fracDigits_all_digits _ _, natToDigits_all_digits _⟩
    rw [Api.formatCost, if_neg hge, if_neg hlt, String.data_append,
      jsToFixed_nonneg_data c hx h21 2]
    rfl

/-- Claim C8 (counterexample): the original claim fails at `c = 10^21`:
there `toFixed` falls back to exponential notation, `formatCost` returns
the dollar string `$1e+21`, and no decomposition of that output as a
dollar string with exactly two digit characters after a decimal point
exists (the output contains no decimal point at all). -/
theorem Api.formatCost_large_counterexample :
    Api.formatCost (10 ^ 21) = "$1e+21" ∧
    ¬∃ ip fr : List Char,
      (Api.formatCost (10 ^ 21)).data = '$' :: (ip ++ '.' :: fr) ∧
      fr.length = 2 ∧ (∀ ch ∈ fr, ch.isDigit) ∧ (∀ ch ∈ ip, ch.isDigit) := by
  have hval : Api.formatCost (10 ^ 21) = "$1e+21" := by
    have hnum : (10 ^ 21 : ℚ) = 1000000000000000000000 := by norm_num
    rw [hnum]
    have h1 : ¬ ((1000000000000000000000 : ℚ) < 1 / 10000) := by norm_num
    have h2 : ¬ ((1000000000000000000000 : ℚ) < 1 / 100) := by norm_num
    rw [Api.formatCost, if_neg h1, if_neg h2]
    have habs : |(1000000000000000000000 : ℚ)| = 1000000000000000000000 :=
      abs_of_nonneg (by norm_num)
    have h3 : (10 ^ 21 : ℚ) ≤ |(1000000000000000000000 : ℚ)| := by
      rw [habs]
      norm_num
    have h4 : ¬ ((1000000000000000000000 : ℚ) < 0) := by norm_num
    rw [Api.jsToFixed, if_pos h3, if_neg h4, habs]
    have h5 : (⌊(1000000000000000000000 : ℚ)⌋).toNat = 1000000000000000000000 := by
      have hcast : ((1000000000000000000000 : ℚ)) =
          ((1000000000000000000000 : ℤ) : ℚ) := by norm_num
      rw [hcast, Int.floor_intCast]
      rfl
    rw [h5]
    decide
  refine ⟨hval, ?_⟩
  rintro ⟨ip, fr, heq, -, -, -⟩
  have hmem : '.' ∈ (Api.formatCost (10 ^ 21)).data := by
    rw [heq]
    simp
  rw [hval] at hmem
  exact absurd hmem (by decide)

/-- Claim C8 witness: at cost 1/200 (= $0.005) the output is a dollar
string with exactly four digit characters after the decimal point. -/
theorem Api.formatCost_branches_witness :
    ∃ ip fr : List Char,
      (Api.formatCost (1 / 200)).data = '$' :: (ip ++ '.' :: fr) ∧
      fr.length = 4 ∧ (∀ ch ∈ fr, ch.isDigit) ∧ (∀ ch ∈ ip, ch.isDigit) :=
  (Api.formatCost_branches (1 / 200)).2.1 (by norm_num) (by norm_num)

/-- A `min`-fold over a list is at most its seed. -/
theorem foldr_min_le_init (t : List ℚ) (a : ℚ) : t.foldr min a ≤ a := by
  induction t with
  | nil => exact le_refl a
  | cons b t ih => exact le_trans (min_le_right _ _) ih

/-- A `min`-fold over a list is at most every member of the list. -/
theorem foldr_min_le_mem (t : List ℚ) (a x : ℚ) (hx : x ∈ t) :
    t.foldr min a ≤ x := by
  induction t with
  | nil => cases hx
  | cons b t ih =>
    rcases List.mem_cons.1 hx with h | h
    · rw [h]
      exact min_le_left _ _
    · exact le_trans (min_le_right _ _) (ih h)

/-- A `max`-fold over a list is at least its seed. -/
theorem init_le_foldr_max (t : List ℚ) (a : ℚ) : a ≤ t.foldr max a := by
  induction t with
  | nil => exact le_refl a
  | cons b t ih => exact le_trans ih (le_max_right _ _)

/-- A `max`-fold over a list is at least every member of the list. -/
theorem mem_le_foldr_max (t : List ℚ) (a x : ℚ) (hx : x ∈ t) :
    x ≤ t.foldr max a := by
  induction t with
  | nil => cases hx
  | cons b t ih =>
    rcases List.mem_cons.1 hx with h | h
    · rw [h]
      exact le_max_left _ _
    · exact le_trans (ih h) (le_max_right _ _)

/-- The minimum of a list bounds each of its members from below. -/
theorem listMin_le {l : List ℚ} {x : ℚ} (hx : x ∈ l) : Engine.listMin l ≤ x := by
  cases l with
  | nil => cases hx
  | cons a t =>
    rcases List.mem_cons.1 hx with h | h
    · rw [h]
      exact foldr_min_le_init t a
    · exact foldr_min_le_mem t a x h

/-- The maximum of a list bounds each of its members from above. -/
theorem le_listMax {l : List ℚ} {x : ℚ} (hx : x ∈ l) : x ≤ Engine.listMax l := by
  cases l with
  | nil => cases hx
  | cons a t =>
    rcases List.mem_cons.1 hx with h | h
    · rw [h]
      exact init_le_foldr_max t a
    · exact mem_le_foldr_max t a x h

/-- Min–max normalization of a member of the set lies in `[0, 1]`. -/
theorem minMaxNorm_mem_unit {l : List ℚ} {x : ℚ} (hx : x ∈ l) :
    0 ≤ Engine.minMaxNorm l x ∧ Engine.minMaxNorm l x ≤ 1 := by
  unfold Engine.minMaxNorm
  by_cases h : Engine.listMax l = Engine.listMin l
  · simp [h]
  · rw [if_neg h]
    have hmin := listMin_le hx
    have hmax := le_listMax hx
    have hlt : Engine.listMin l < Engine.listMax l :=
      lt_of_le_of_ne (le_trans hmin hmax) (Ne.symm h)
    constructor
    · exact div_nonneg (by linarith) (by linarith)
    · rw [div_le_one (by linarith)]
      linarith

/-- Claim C4: for a candidate of a (non-empty) eligible set, each of the
four component scores — cost, latency, quality, availability — and the
weighted final score lie in `[0, 1]`, given the data-model invariants the
spec states: baseline quality in `[0, 1]`, error rate in `[0, 1]`, and a
non-negative weight tuple summing to 1. -/
theorem Engine.scores_in_unit_interval (set : List Engine.Candidate)
    (c : Engine.Candidate) (w : Engine.Weights)
    (hmem : c ∈ set) (hq0 : 0 ≤ c.quality) (hq1 : c.quality ≤ 1)
    (he0 : 0 ≤ c.errorRate) (he1 : c.errorRate ≤ 1)
    (hw : w.Nonneg) (hsum : w.sum = 1) :
    (0 ≤ Engine.costScore set c ∧ Engine.costScore set c ≤ 1) ∧
    (0 ≤ Engine.latencyScore set c ∧ Engine.latencyScore set c ≤ 1) ∧
    (0 ≤ Engine.qualityScore c ∧ Engine.qualityScore c ≤ 1) ∧
    (0 ≤ Engine.availScore c ∧ Engine.availScore c ≤ 1) ∧
    (0 ≤ Engine.finalScore w set c ∧ Engine.finalScore w set c ≤ 1) := by
  have hc := minMaxNorm_mem_unit
    (List.mem_map_of_mem Engine.Candidate.estCost hmem)
  have hl := minMaxNorm_mem_unit
    (List.mem_map_of_mem Engine.Candidate.baselineLatency hmem)
  have hcost : 0 ≤ Engine.costScore set c ∧ Engine.costScore set c ≤ 1 := by
    unfold Engine.costScore
    constructor <;> linarith [hc.1, hc.2]
  have hlat : 0 ≤ Engine.latencyScore set c ∧ Engine.latencyScore set c ≤ 1 := by
    unfold Engine.latencyScore
    constructor <;> linarith [hl.1, hl.2]
  have hqual : 0 ≤ Engine.qualityScore c ∧ Engine.qualityScore c ≤ 1 :=
    ⟨hq0, hq1⟩
  have havail : 0 ≤ Engine.availScore c ∧ Engine.availScore c ≤ 1 := by
    unfold Engine.availScore Engine.availabilityScore
    cases c.health <;> constructor <;> nlinarith [he0, he1]
  obtain ⟨hw1, hw2, hw3, hw4⟩ := hw
  have hsum4 : w.w_cost + w.w_latency + w.w_quality + w.w_availability = 1 := hsum
  refine ⟨hcost, hlat, hqual, havail, ?_, ?_⟩
  · unfold Engine.finalScore
    have := mul_nonneg hw1 hcost.1
    have := mul_nonneg hw2 hlat.1
    have := mul_nonneg hw3 hqual.1
    have := mul_nonneg hw4 havail.1
    linarith
  · unfold Engine.finalScore
    have := mul_le_of_le_one_right hw1 hcost.2
    have := mul_le_of_le_one_right hw2 hlat.2
    have := mul_le_of_le_one_right hw3 hqual.2
    have := mul_le_of_le_one_right hw4 havail.2
    linarith

/-- Claim C4 witness: with two concrete candidates and the balanced weight
tuple, the first candidate's component scores and final score lie in
`[0, 1]`. -/
theorem Engine.scores_in_unit_interval_witness :
    (0 ≤ Engine.costScore
        [⟨"a", 1, 100, 3 / 4, .healthy, 0⟩, ⟨"b", 2, 200, 1 / 2, .degraded, 1 / 10⟩]
        ⟨"a", 1, 100, 3 / 4, .healthy, 0⟩ ∧
      Engine.costScore
        [⟨"a", 1, 100, 3 / 4, .healthy, 0⟩, ⟨"b", 2, 200, 1 / 2, .degraded, 1 / 10⟩]
        ⟨"a", 1, 100, 3 / 4, .healthy, 0⟩ ≤ 1) ∧
    (0 ≤ Engine.latencyScore
        [⟨"a", 1, 100, 3 / 4, .healthy, 0⟩, ⟨"b", 2, 200, 1 / 2, .degraded, 1 / 10⟩]
        ⟨"a", 1, 100, 3 / 4, .healthy, 0⟩ ∧
      Engine.latencyScore
        [⟨"a", 1, 100, 3 / 4, .healthy, 0⟩, ⟨"b", 2, 200, 1 / 2, .degraded, 1 / 10⟩]
        ⟨"a", 1, 100, 3 / 4, .healthy, 0⟩ ≤ 1) ∧
    (0 ≤ Engine.qualityScore ⟨"a", 1, 100, 3 / 4, .healthy, 0⟩ ∧
      Engine.qualityScore ⟨"a", 1, 100, 3 / 4, .healthy, 0⟩ ≤ 1) ∧
    (0 ≤ Engine.availScore ⟨"a", 1, 100, 3 / 4, .healthy, 0⟩ ∧
      Engine.availScore ⟨"a", 1, 100, 3 / 4, .healthy, 0⟩ ≤ 1) ∧
    (0 ≤ Engine.finalScore ⟨1 / 4, 1 / 4, 1 / 4, 1 / 4⟩
        [⟨"a", 1, 100, 3 / 4, .healthy, 0⟩, ⟨"b", 2, 200, 1 / 2, .degraded, 1 / 10⟩]
        ⟨"a", 1, 100, 3 / 4, .healthy, 0⟩ ∧
      Engine.finalScore ⟨1 / 4, 1 / 4, 1 / 4, 1 / 4⟩
        [⟨"a", 1, 100, 3 / 4, .healthy, 0⟩, ⟨"b", 2, 200, 1 / 2, .degraded, 1 / 10⟩]
        ⟨"a", 1, 100, 3 / 4, .healthy, 0⟩ ≤ 1) :=
  Engine.scores_in_unit_interval
    [⟨"a", 1, 100, 3 / 4, .healthy, 0⟩, ⟨"b", 2, 200, 1 / 2, .degraded, 1 / 10⟩]
    ⟨"a", 1, 100, 3 / 4, .healthy, 0⟩ ⟨1 / 4, 1 / 4, 1 / 4, 1 / 4⟩
    (List.mem_cons_self _ _) (by norm_num) (by norm_num) (by norm_num)
    (by norm_num)
    ⟨by norm_num, by norm_num, by norm_num, by norm_num⟩
    (by norm_num [Engine.Weights.sum])

/-- When every candidate of the ranked list fails with a retryable error,
the attempt loop exhausts and returns `AllProvidersFailed`, its attempt
list extending the accumulator by exactly the first `cap` candidates of
the list, in order. -/
theorem attemptLoop_all_fail {α : Type} (invoke : String → Except Engine.ErrorKind α)
    (l : List String) :
    ∀ (k : ℕ) (acc : List (String × Engine.ErrorKind)),
      (∀ c ∈ l, ∃ e, invoke c = .error e ∧ e ≠ .unauthenticated) →
      ∃ tail, Engine.attemptLoop invoke k l acc = .allProvidersFailed (acc ++ tail) ∧
        tail.map Prod.fst = l.take k := by
  induction l with
  | nil =>
    intro k acc _
    refine ⟨[], ?_, by simp⟩
    cases k <;> simp [Engine.attemptLoop]
  | cons c rest ih =>
    intro k acc hfail
    cases k with
    | zero => exact ⟨[], by simp [Engine.attemptLoop], by simp⟩
    | succ k =>
      obtain ⟨e, he, hne⟩ := hfail c (List.mem_cons_self _ _)
      obtain ⟨tail, ht, hm⟩ :=
        ih k (acc ++ [(c, e)]) (fun x hx => hfail x (List.mem_cons_of_mem _ hx))
      refine ⟨(c, e) :: tail, ?_, ?_⟩
      · rw [Engine.attemptLoop, he]
        simp only [hne, if_false, ite_false]
        rw [ht]
        congr 1
        simp
      · simp [hm]

/-- Claim C6: if every eligible candidate's invocation fails (with a
retryable error — the spec surfaces `Unauthenticated` immediately without
fallback), `route` returns `AllProvidersFailed`; its attempt list is the
first `cap` ranked candidates in order, so its length is the number of
candidates actually attempted, `min cap |eligible|`, never exceeds the
attempt cap, and — when the eligible candidates are pairwise distinct —
names no candidate twice. -/
theorem Engine.route_all_fail_exhaustion {α : Type}
    (invoke : String → Except Engine.ErrorKind α) (cap : ℕ)
    (eligible : List String)
    (hne : eligible ≠ []) (hnd : eligible.Nodup)
    (hfail : ∀ c ∈ eligible, ∃ e, invoke c = .error e ∧ e ≠ .unauthenticated) :
    ∃ attempts, Engine.route invoke cap eligible = .allProvidersFailed attempts ∧
      attempts.map Prod.fst = eligible.take cap ∧
      attempts.length = min cap eligible.length ∧
      attempts.length ≤ cap ∧
      (attempts.map Prod.fst).Nodup := by
  obtain ⟨tail, ht, hm⟩ := attemptLoop_all_fail invoke eligible cap [] hfail
  have hempty : eligible.isEmpty = false := by
    cases eligible with
    | nil => exact absurd rfl hne
    | cons a t => rfl
  refine ⟨tail, ?_, hm, ?_, ?_, ?_⟩
  · rw [Engine.route, hempty]
    simpa using ht
  · have : (tail.map Prod.fst).length = (eligible.take cap).length := by rw [hm]
    simpa [List.length_map, List.length_take] using this
  · have : (tail.map Prod.fst).length = (eligible.take cap).length := by rw [hm]
    simp only [List.length_map, List.length_take] at this
    omega
  · rw [hm]
    exact List.Nodup.sublist (List.take_sublist _ _) hnd

/-- Claim C6 witness: four distinct eligible candidates, all failing with a
timeout, under the default cap of 3: the router exhausts with exactly the
first three candidates as attempts, none repeated. -/
theorem Engine.route_all_fail_exhaustion_witness :
    ∃ attempts,
      Engine.route (α := Unit) (fun _ => .error .timeout) 3 ["a", "b", "c", "d"] =
        .allProvidersFailed attempts ∧
      attempts.map Prod.fst = ["a", "b", "c", "d"].take 3 ∧
      attempts.length = min 3 (["a", "b", "c", "d"].length) ∧
      attempts.length ≤ 3 ∧
      (attempts.map Prod.fst).Nodup :=
  Engine.route_all_fail_exhaustion (fun _ => .error .timeout) 3 ["a", "b", "c", "d"]
    (by decide) (by decide) (fun c _ => ⟨.timeout, rfl, by decide⟩)
